import Mathlib

/-!
Verification development for the terminal-tide chat repository.

The chat-protocol layer lives in `src/chat.js` (the `ChatSession` and
`ChatProtocol` classes) together with the room-id helper of the browser
example.  This file gives a shallow embedding of that layer:

* byte-level helpers (UTF-8 encoding, hex printing),
* the frame codec actually used on the wire (`it-length-prefixed`, whose
  default length header is an unsigned LEB128 varint),
* the envelope model (the JSON objects the code constructs, serialized
  exactly as `JSON.stringify` renders them, field order included),
* the hash functions (`xxHash32` of the browser example, SHA-256 used by
  `ChatProtocol.generateRoomId`),
* a state-transition model of `ChatSession` / `ChatProtocol`, where each
  synchronous region of the JavaScript code is one atomic transition and
  the `await` suspension inside `openStream` is kept as an explicit phase
  boundary.
-/

/-! ## Byte-level helpers -/

/-- One hexadecimal digit, lower case, as produced by `Number.toString(16)`. -/
def hexDigit (n : Nat) : Char :=
  if n < 10 then Char.ofNat (48 + n) else Char.ofNat (87 + n)

/-- The `w` hexadecimal digits of `n`, most significant first (the rendering of
`n.toString(16).padStart(w, "0")` for `n < 16 ^ w`). -/
def hexChars : Nat → Nat → List Char
  | 0, _ => []
  | w + 1, n => hexChars w (n / 16) ++ [hexDigit (n % 16)]

/-- Rendering of `n.toString(16).padStart(w, "0")` for `n < 16 ^ w`. -/
def toHexPad (w n : Nat) : String :=
  String.mk (hexChars w n)

/-- UTF-8 encoding of one code point (what `uint8arrays.fromString` and
`TextEncoder` produce per character). -/
def utf8Char (c : Char) : List Nat :=
  let n := c.toNat
  if n < 0x80 then [n]
  else if n < 0x800 then [0xC0 + n / 64, 0x80 + n % 64]
  else if n < 0x10000 then [0xE0 + n / 4096, 0x80 + (n / 64) % 64, 0x80 + n % 64]
  else [0xF0 + n / 262144, 0x80 + (n / 4096) % 64, 0x80 + (n / 64) % 64, 0x80 + n % 64]

/-- UTF-8 bytes of a string. -/
def utf8Bytes (s : String) : List Nat :=
  (s.data.map utf8Char).flatten

/-! ## Frame codec

`ChatSession.handleStream` pipes the outbound queue through `lp.encode` and
the inbound bytes through `lp.decode` (`it-length-prefixed`).  That library's
default length header is an unsigned LEB128 varint, not a fixed-width field;
we embed that documented default. -/

/-- Unsigned LEB128 varint digits of `n`, least significant group first
(`fuel` bounds the recursion; `fuel = n + 1` always suffices). -/
def varintAux : Nat → Nat → List Nat
  | 0, _ => []
  | fuel + 1, n =>
    if n < 128 then [n] else (n % 128 + 128) :: varintAux fuel (n / 128)

/-- Unsigned LEB128 varint encoding of `n` (the default length header of
`it-length-prefixed`). -/
def varintBytes (n : Nat) : List Nat :=
  varintAux (n + 1) n

/-- One frame as `lp.encode` emits it for a single payload: varint length
header followed by the payload bytes. -/
def lpEncodeSingle (payload : List Nat) : List Nat :=
  varintBytes payload.length ++ payload

/-! ## Envelope model

The code sends plain JSON objects; `serialize` renders each one exactly as
`JSON.stringify` does for the object literals constructed in the source
(`sendHandshake`, `sendMessage`, `broadcastNicknameUpdate`), field order
included. -/

/-- JSON escape of one character, as `JSON.stringify` renders string data. -/
def jsonEscapeChar (c : Char) : String :=
  if c = Char.ofNat 34 then "\\\""
  else if c = Char.ofNat 92 then "\\\\"
  else if c = Char.ofNat 8 then "\\b"
  else if c = Char.ofNat 9 then "\\t"
  else if c = Char.ofNat 10 then "\\n"
  else if c = Char.ofNat 12 then "\\f"
  else if c = Char.ofNat 13 then "\\r"
  else if c.toNat < 32 then "\\u" ++ toHexPad 4 c.toNat
  else String.singleton c

/-- JSON escape of a string body. -/
def jsonEscape (s : String) : String :=
  String.join (s.data.map jsonEscapeChar)

/-- A JSON string literal. -/
def jsonString (s : String) : String :=
  "\"" ++ jsonEscape s ++ "\""

/-- JSON rendering of a boolean. -/
def jsonBool (b : Bool) : String :=
  if b then "true" else "false"

/-- The envelopes the chat layer exchanges: the tagged JSON objects built by
`ChatSession.sendHandshake`, `ChatProtocol.sendMessage`, the application's
`broadcastNicknameUpdate`, the `m.typing` messages the handler table accepts,
and a catch-all for frames whose `type` string matches no known tag. -/
inductive Envelope where
  | hello (sender : String)
  | roomMessage (sender roomId : String) (originTs seq : Nat) (eventId body : String)
  | typing (sender : String) (isTyping : Bool)
  | nicknameUpdate (sender nickname : String)
  | unknown (tag : String)
deriving DecidableEq, Repr

/-- The `type` discriminant string carried by the envelope's JSON object. -/
def Envelope.typeOf : Envelope → String
  | .hello _ => "hello"
  | .roomMessage .. => "m.room.message"
  | .typing .. => "m.typing"
  | .nicknameUpdate .. => "m.nickname"
  | .unknown t => t

/-- Rendering by `JSON.stringify` of the message object as the source constructs it.
`\x7b`/`\x7d` denote the literal braces of the JSON text. -/
def Envelope.serialize : Envelope → String
  | .hello sender =>
    "\x7b\"type\":\"hello\",\"sender\":" ++ jsonString sender ++
    ",\"protocol_version\":\"length-prefixed-v1\"," ++
    "\"capabilities\":\x7b\"v\":1,\"maxFrame\":131072\x7d\x7d"
  | .roomMessage sender roomId originTs seq eventId body =>
    "\x7b\"type\":\"m.room.message\",\"sender\":" ++ jsonString sender ++
    ",\"room_id\":" ++ jsonString roomId ++
    ",\"origin_ts\":" ++ toString originTs ++
    ",\"seq\":" ++ toString seq ++
    ",\"event_id\":" ++ jsonString eventId ++
    ",\"content\":\x7b\"msgtype\":\"m.text\",\"body\":" ++ jsonString body ++
    "\x7d\x7d"
  | .typing sender isTyping =>
    "\x7b\"type\":\"m.typing\",\"sender\":" ++ jsonString sender ++
    ",\"typing\":" ++ jsonBool isTyping ++ "\x7d"
  | .nicknameUpdate sender nickname =>
    "\x7b\"type\":\"m.nickname\",\"sender\":" ++ jsonString sender ++
    ",\"nickname\":" ++ jsonString nickname ++ "\x7d"
  | .unknown tag =>
    "\x7b\"type\":" ++ jsonString tag ++ "\x7d"

/-- The payload bytes `ChatSession.send` pushes onto the outbound queue:
UTF-8 bytes of the JSON text (`uint8ArrayFromString(JSON.stringify(m))`). -/
def Envelope.payloadBytes (e : Envelope) : List Nat :=
  utf8Bytes e.serialize

/-- The wire frame the outbound pipe emits for one envelope: the payload as
framed by `lp.encode`. -/
def wireFrame (e : Envelope) : List Nat :=
  lpEncodeSingle e.payloadBytes

/-! ## JavaScript string order

`[a, b].sort()` compares strings by UTF-16 code units, and `charCodeAt`
yields UTF-16 code units; both are modelled through `utf16CharUnits`. -/

/-- UTF-16 code units of one code point (surrogate pair above `0x10000`). -/
def utf16CharUnits (c : Char) : List Nat :=
  let n := c.toNat
  if n < 0x10000 then [n]
  else
    let m := n - 0x10000
    [0xD800 + m / 0x400, 0xDC00 + m % 0x400]

/-- UTF-16 code units of a character list. -/
def utf16Units (cs : List Char) : List Nat :=
  (cs.map utf16CharUnits).flatten

/-- Lexicographic order on code-unit lists. -/
def unitsLt : List Nat → List Nat → Bool
  | [], [] => false
  | [], _ :: _ => true
  | _ :: _, [] => false
  | x :: xs, y :: ys =>
    if x < y then true else if y < x then false else unitsLt xs ys

/-- The `<` comparison JavaScript's default sort applies to two strings. -/
def jsStringLt (a b : String) : Bool :=
  unitsLt (utf16Units a.data) (utf16Units b.data)

/-- Result of `[a, b].sort()` for two strings. -/
def sortPair (a b : String) : String × String :=
  if jsStringLt b a then (b, a) else (a, b)

/-! ## xxHash32 and the example's room id

The browser example (`roomIdForPeers`) hashes the sorted, `":"`-joined peer
pair twice with the xxHash32-style mixer below; this is the computation the
specification's §4.5 describes.  32-bit quantities are `Nat` values kept
below `2 ^ 32`; `Math.imul` is multiplication mod `2 ^ 32` and `>>> k` is
division by `2 ^ k`. -/

/-- Multiplication by `Math.imul`, viewed on the unsigned 32-bit pattern. -/
def imul32 (a b : Nat) : Nat :=
  (a * b) % 4294967296

/-- The `xxHash32(data, seed)` function of the browser example, folding over
`charCodeAt` units. -/
def xxHash32 (data : String) (seed : Nat) : Nat :=
  let units := utf16Units data.data
  let h0 := (seed + 0x165667B1) % 4294967296
  let h1 := units.foldl (fun h c => imul32 (Nat.xor h c) 0x85EBCA6B) h0
  let h2 := Nat.xor h1 units.length
  let h3 := imul32 (Nat.xor h2 (h2 / 65536)) 0x85EBCA6B
  let h4 := imul32 (Nat.xor h3 (h3 / 8192)) 0xC2B2AE35
  Nat.xor h4 (h4 / 65536)

/-- Function `roomIdForPeers` of the browser example: sort, join with `":"`, hash
twice with seeds `0` and `0x9e3779b9`, pad each hash to 8 hex digits. -/
def roomIdForPeers (peerA peerB : String) : String :=
  let lowHigh := sortPair peerA peerB
  let base := lowHigh.1 ++ ":" ++ lowHigh.2
  let h1 := toHexPad 8 (xxHash32 base 0)
  let h2 := toHexPad 8 (xxHash32 base 0x9e3779b9)
  "!dm_" ++ h1 ++ h2

/-! ## SHA-256

`ChatProtocol.generateRoomId` digests the combined peer string with the Web
Crypto API's SHA-256.  The algorithm is embedded below over byte lists, with
32-bit words as `Nat` values reduced mod `2 ^ 32`. -/

/-- Right rotation of a 32-bit word. -/
def rotr32 (n x : Nat) : Nat :=
  (x / 2 ^ n) + (x % 2 ^ n) * 2 ^ (32 - n)

/-- Three-way xor. -/
def xor3 (a b c : Nat) : Nat :=
  Nat.xor (Nat.xor a b) c

/-- The 64 SHA-256 round constants (decimal rendering of the standard
cube-root-derived words). -/
def shaK : List Nat :=
  [1116352408, 1899447441, 3049323471,
   3921009573, 961987163, 1508970993,
   2453635748, 2870763221, 3624381080,
   310598401, 607225278, 1426881987,
   1925078388, 2162078206, 2614888103,
   3248222580, 3835390401, 4022224774,
   264347078, 604807628, 770255983,
   1249150122, 1555081692, 1996064986,
   2554220882, 2821834349, 2952996808,
   3210313671, 3336571891, 3584528711,
   113926993, 338241895, 666307205,
   773529912, 1294757372, 1396182291,
   1695183700, 1986661051, 2177026350,
   2456956037, 2730485921, 2820302411,
   3259730800, 3345764771, 3516065817,
   3600352804, 4094571909, 275423344,
   430227734, 506948616, 659060556,
   883997877, 958139571, 1322822218,
   1537002063, 1747873779, 1955562222,
   2024104815, 2227730452, 2361852424,
   2428436474, 2756734187, 3204031479,
   3329325298]

/-- The eight-word working state of the compression function. -/
structure Hash8 where
  a : Nat
  b : Nat
  c : Nat
  d : Nat
  e : Nat
  f : Nat
  g : Nat
  h : Nat
deriving DecidableEq, Repr

/-- The SHA-256 initial hash value. -/
def shaInit : Hash8 :=
  ⟨1779033703, 3144134277, 1013904242, 2773480762,
   1359893119, 2600822924, 528734635, 1541459225⟩

/-- Merkle–Damgård padding: `0x80`, zeros to 56 mod 64, bit length as eight
big-endian bytes. -/
def sha256Pad (msg : List Nat) : List Nat :=
  let lenBits := 8 * msg.length
  let zeros := List.replicate ((119 - msg.length % 64) % 64) 0
  let lenBytes := [56, 48, 40, 32, 24, 16, 8, 0].map fun s => lenBits / 2 ^ s % 256
  msg ++ [0x80] ++ zeros ++ lenBytes

/-- Big-endian 32-bit words from bytes (length a multiple of four). -/
def bytesToWords : List Nat → List Nat
  | b0 :: b1 :: b2 :: b3 :: rest =>
    (((b0 * 256 + b1) * 256 + b2) * 256 + b3) :: bytesToWords rest
  | _ => []

/-- Split a word list into 16-word blocks (`fuel` bounds the recursion). -/
def blocksAux : Nat → List Nat → List (List Nat)
  | 0, _ => []
  | _, [] => []
  | fuel + 1, ws => ws.take 16 :: blocksAux fuel (ws.drop 16)

/-- Extend a 16-word block to the 64-word message schedule. -/
def schedule (block : List Nat) : List Nat :=
  (List.range 48).foldl
    (fun ws i =>
      let j := i + 16
      let x := ws.getD (j - 15) 0
      let y := ws.getD (j - 2) 0
      let s0 := xor3 (rotr32 7 x) (rotr32 18 x) (x / 2 ^ 3)
      let s1 := xor3 (rotr32 17 y) (rotr32 19 y) (y / 2 ^ 10)
      ws ++ [(ws.getD (j - 16) 0 + s0 + ws.getD (j - 7) 0 + s1) % 4294967296])
    block

/-- One SHA-256 round. -/
def shaRound (st : Hash8) (kw : Nat × Nat) : Hash8 :=
  let s1 := xor3 (rotr32 6 st.e) (rotr32 11 st.e) (rotr32 25 st.e)
  let ch := Nat.xor (Nat.land st.e st.f) (Nat.land (Nat.xor st.e 4294967295) st.g)
  let temp1 := (st.h + s1 + ch + kw.1 + kw.2) % 4294967296
  let s0 := xor3 (rotr32 2 st.a) (rotr32 13 st.a) (rotr32 22 st.a)
  let maj := xor3 (Nat.land st.a st.b) (Nat.land st.a st.c) (Nat.land st.b st.c)
  let temp2 := (s0 + maj) % 4294967296
  ⟨(temp1 + temp2) % 4294967296, st.a, st.b, st.c,
   (st.d + temp1) % 4294967296, st.e, st.f, st.g⟩

/-- Compress one block into the chaining state. -/
def compressBlock (h0 : Hash8) (block : List Nat) : Hash8 :=
  let ws := schedule block
  let st := (shaK.zip ws).foldl shaRound h0
  ⟨(h0.a + st.a) % 4294967296, (h0.b + st.b) % 4294967296,
   (h0.c + st.c) % 4294967296, (h0.d + st.d) % 4294967296,
   (h0.e + st.e) % 4294967296, (h0.f + st.f) % 4294967296,
   (h0.g + st.g) % 4294967296, (h0.h + st.h) % 4294967296⟩

/-- SHA-256 digest of a byte list, as 32 bytes. -/
def sha256Bytes (msg : List Nat) : List Nat :=
  let ws := bytesToWords (sha256Pad msg)
  let final := (blocksAux (ws.length + 1) ws).foldl compressBlock shaInit
  [final.a, final.b, final.c, final.d, final.e, final.f, final.g, final.h].flatMap
    fun w => [w / 16777216 % 256, w / 65536 % 256, w / 256 % 256, w % 256]

/-- Hex rendering of a digest: each byte via `toString(16).padStart(2, "0")`,
joined — exactly the mapping in `generateRoomId`. -/
def bytesToHex (bs : List Nat) : String :=
  String.join (bs.map (toHexPad 2))

/-- Method `ChatProtocol.generateRoomId`: sort the two peer ids, join with `":"`,
SHA-256 the UTF-8 bytes, hex-encode the digest and keep the first 16
characters (`hashHex.substring(0, 16)`). -/
def generateRoomId (peerId1 peerId2 : String) : String :=
  let sorted := sortPair peerId1 peerId2
  let combined := sorted.1 ++ ":" ++ sorted.2
  let hashHex := bytesToHex (sha256Bytes (utf8Bytes combined))
  String.mk (hashHex.data.take 16)

/-! ## Session model

`ChatSession` owns one duplex stream.  The stream itself is external
transport state; the model keeps the one bit of it the claims need, namely
whether its sink accepts writes (`sinkOk`).  `send` never consults the sink:
it only checks `isActive` and pushes onto the `pushable` queue, exactly as
the source does. -/

/-- The errors `ChatSession.send` can surface to its caller
(`throw new Error("Session is not active")`). -/
inductive SendError where
  | sessionInactive
deriving DecidableEq, Repr

/-- One chat session: peer id, the owned stream's sink health, the `isActive`
flag, the contents of the `pushable` outbound queue, whether `outbound.end()`
has been called, and the `seq` counter. -/
structure ChatSession where
  peerId : String
  sinkOk : Bool
  isActive : Bool
  outbound : List Envelope
  outboundEnded : Bool
  seq : Nat
deriving DecidableEq, Repr

/-- Constructor `new ChatSession(stream, peerId, …)`: active, empty queue, `seq = 0`. -/
def ChatSession.new (sink : Bool) (peerId : String) : ChatSession :=
  ⟨peerId, sink, true, [], false, 0⟩

/-- Method `ChatSession.send`: throw when inactive, otherwise push the encoded
message onto the outbound queue and bump `seq`.  No handshake state is
consulted and the stream is not touched. -/
def ChatSession.send (s : ChatSession) (m : Envelope) : Except SendError ChatSession :=
  if s.isActive then
    .ok { s with outbound := s.outbound ++ [m], seq := s.seq + 1 }
  else
    .error .sessionInactive

/-- Method `ChatSession.close`: no-op when already inactive; otherwise deactivate,
end the outbound queue, and report that the `onClose` callback fires. -/
def ChatSession.close (s : ChatSession) : ChatSession × Bool :=
  if s.isActive then
    ({ s with isActive := false, outboundEnded := true }, true)
  else
    (s, false)

/-- The frames that actually reach the transport: the outbound pipe runs the
queue through `lp.encode` into the stream sink; a failing sink delivers
nothing (the pipe errors and closes the session). -/
def ChatSession.wireOutput (s : ChatSession) : List (List Nat) :=
  if s.sinkOk then s.outbound.map wireFrame else []

/-! ## Protocol coordinator model

`ChatProtocol` holds `this.sessions : Map peerId → session`.  To talk about
sessions that fall out of the registry while staying alive, session objects
live in a `store` keyed by a creation counter, and the registry maps peer
ids to store keys.  Each synchronous region of the JavaScript source is one
atomic function here; the `await this.node.dialProtocol(...)` suspension in
the middle of `openStream` separates `openStreamCheck` from
`openStreamRegister`. -/

/-- Events emitted to the application event sink (`this.emit`). -/
inductive Event where
  | chatConnected (peerId : String)
  | chatDisconnected (peerId : String)
  | peerHandshake (peerId : String)
  | messageSent (msg : Envelope)
  | messageReceived (msg : Envelope)
  | peerTyping (peerId : String) (isTyping : Bool)
  | peerNickname (peerId nickname : String)
deriving DecidableEq, Repr

/-- Lookup as `Map.get`: the value stored under the key, if any. -/
def lookupA {α β : Type} [DecidableEq α] (k : α) : List (α × β) → Option β
  | [] => none
  | e :: rest => if e.1 = k then some e.2 else lookupA k rest

/-- Update as `Map.set`: overwrite the entry in place, else append. -/
def setAssoc {α β : Type} [DecidableEq α] (k : α) (v : β) :
    List (α × β) → List (α × β)
  | [] => [(k, v)]
  | e :: rest => if e.1 = k then (k, v) :: rest else e :: setAssoc k v rest

/-- Removal as `Map.delete`: drop the entry for the key. -/
def delAssoc {α β : Type} [DecidableEq α] (k : α) :
    List (α × β) → List (α × β)
  | [] => []
  | e :: rest => if e.1 = k then rest else e :: delAssoc k rest

/-- The coordinator state: own peer id, the `sessions` map (peer id → store
key), the store of every session object created so far, the creation
counter, the events emitted so far, the persistence history
(`storage.addMessage` calls, in order), and the fresh-id counter that models
the `Date.now()` / `Math.random()` draws of `generateEventId`. -/
structure ProtoState where
  selfPeerId : String
  registry : List (String × Nat)
  store : List (Nat × ChatSession)
  nextId : Nat
  events : List Event
  history : List (String × Envelope)
  eventCounter : Nat
deriving DecidableEq, Repr

/-- A coordinator with no sessions. -/
def ProtoState.init (selfPeerId : String) : ProtoState :=
  ⟨selfPeerId, [], [], 0, [], [], 0⟩

/-- Model of `generateEventId`: the source draws `Date.now()` and `Math.random()`;
the model renders the fresh-id counter instead, keeping each draw distinct. -/
def generateEventId (ctr : Nat) : String :=
  toString ctr ++ "_evt"

/-- Send an envelope through the session stored under `sid`
(`session.send(...)` where the session lives in the store). -/
def ProtoState.sendTo (st : ProtoState) (sid : Nat) (m : Envelope) :
    Except SendError ProtoState :=
  match lookupA sid st.store with
  | none => .error .sessionInactive
  | some s => (s.send m).map fun s₂ => { st with store := setAssoc sid s₂ st.store }

/-- The registration block shared by both stream-arrival paths:
`new ChatSession(...)` followed by `this.sessions.set(peerId, session)`.
`Map.set` overwrites, so an entry registered for the peer in the meantime is
replaced, not merged. -/
def ProtoState.registerNew (st : ProtoState) (sink : Bool) (remotePeer : String) :
    ProtoState × Nat :=
  let sid := st.nextId
  ({ st with
      registry := setAssoc remotePeer sid st.registry,
      store := setAssoc sid (ChatSession.new sink remotePeer) st.store,
      nextId := sid + 1 }, sid)

/-- Method `ChatProtocol.handleIncomingStream`: if a session already exists for the
remote peer, close the new stream and return (the returned flag reports the
duplicate suppression); otherwise create a session, register it, send the
`hello` handshake and emit `chat:connected`.  The whole body up to the
registration is one synchronous region. -/
def handleIncomingStream (remotePeer : String) (sink : Bool) (st : ProtoState) :
    ProtoState × Bool :=
  if (lookupA remotePeer st.registry).isSome then
    (st, true)
  else
    let r := st.registerNew sink remotePeer
    let st₂ :=
      match r.1.sendTo r.2 (.hello st.selfPeerId) with
      | .ok s => s
      | .error _ => r.1
    ({ st₂ with events := st₂.events ++ [.chatConnected remotePeer] }, false)

/-- The synchronous head of `ChatProtocol.openStream`: the
`this.sessions.has(peerId)` check performed before the dial. -/
def openStreamCheck (peerId : String) (st : ProtoState) : Option Nat :=
  lookupA peerId st.registry

/-- The continuation of `ChatProtocol.openStream` after
`await this.node.dialProtocol(...)` resolves: create a session, register it
(`Map.set`, overwriting whatever was registered during the await), send the
handshake, emit `chat:connected`, return the session. -/
def openStreamRegister (peerId : String) (sink : Bool) (st : ProtoState) :
    ProtoState × Nat :=
  let r := st.registerNew sink peerId
  let st₂ :=
    match r.1.sendTo r.2 (.hello st.selfPeerId) with
    | .ok s => s
    | .error _ => r.1
  ({ st₂ with events := st₂.events ++ [.chatConnected peerId] }, r.2)

/-- Method `ChatProtocol.openStream` as one uninterrupted call (no other activity
between the registry check and the post-dial registration, dial successful). -/
def openStream (peerId : String) (sink : Bool) (st : ProtoState) :
    ProtoState × Nat :=
  match openStreamCheck peerId st with
  | some sid => (st, sid)
  | none => openStreamRegister peerId sink st

/-- Method `ChatProtocol.handleSessionClose`: drop the registry entry and emit
`chat:disconnected`. -/
def handleSessionClose (peerId : String) (st : ProtoState) : ProtoState :=
  { st with
      registry := delAssoc peerId st.registry,
      events := st.events ++ [.chatDisconnected peerId] }

/-- Effect of `session.close()` for the session stored under `sid`: no-op when already
inactive, otherwise deactivate it and run the `onClose` callback
(`handleSessionClose`). -/
def closeSessionId (sid : Nat) (st : ProtoState) : ProtoState :=
  match lookupA sid st.store with
  | none => st
  | some s =>
    let r := s.close
    if r.2 then
      handleSessionClose s.peerId { st with store := setAssoc sid r.1 st.store }
    else
      st

/-- Method `ChatProtocol.closeSession(peerId)`: look the session up and close it. -/
def closeSession (peerId : String) (st : ProtoState) : ProtoState :=
  match lookupA peerId st.registry with
  | none => st
  | some sid => closeSessionId sid st

/-- The field reads `message.room_id`, `message.typing`, `message.nickname`
performed by the handlers; an absent property (`undefined`) is modelled by
the default value. -/
def Envelope.roomIdField : Envelope → String
  | .roomMessage _ roomId .. => roomId
  | _ => ""

def Envelope.typingField : Envelope → Bool
  | .typing _ t => t
  | _ => false

def Envelope.nicknameField : Envelope → String
  | .nicknameUpdate _ n => n
  | _ => ""

/-- Method `ChatProtocol.handleMessage`: dispatch on `message.type` through the
handler table registered in `registerMessageHandlers`; an unknown type is
only logged (`console.warn`), nothing else happens. -/
def handleMessage (m : Envelope) (peerId : String) (st : ProtoState) : ProtoState :=
  if m.typeOf = "hello" then
    { st with events := st.events ++ [.peerHandshake peerId] }
  else if m.typeOf = "m.room.message" then
    { st with
        history := st.history ++ [(m.roomIdField, m)],
        events := st.events ++ [.messageReceived m] }
  else if m.typeOf = "m.typing" then
    { st with events := st.events ++ [.peerTyping peerId m.typingField] }
  else if m.typeOf = "m.nickname" then
    { st with events := st.events ++ [.peerNickname peerId m.nicknameField] }
  else
    st

/-- Method `ChatProtocol.sendMessage`: reuse or open a session, construct the
`m.room.message` envelope (timestamp and event id drawn from the fresh-id
counter, `seq` from the session), send it, then append it to history and
emit `message:sent`.  On a send error the partial effects (the fresh-id
draw) remain, the history append and event are skipped, and the error is
surfaced.  A dial performed by `openStream` is modelled as returning a
healthy stream. -/
def sendMessage (peerId content roomId : String) (st : ProtoState) :
    ProtoState × Except SendError Envelope :=
  let r :=
    match lookupA peerId st.registry with
    | some sid => (st, sid)
    | none => openStream peerId true st
  let st₁ := r.1
  match lookupA r.2 st₁.store with
  | none => (st₁, .error .sessionInactive)
  | some s =>
    let m := Envelope.roomMessage st₁.selfPeerId roomId st₁.eventCounter s.seq
      (generateEventId st₁.eventCounter) content
    let st₂ := { st₁ with eventCounter := st₁.eventCounter + 1 }
    match st₂.sendTo r.2 m with
    | .error e => (st₂, .error e)
    | .ok st₃ =>
      ({ st₃ with
          history := st₃.history ++ [(roomId, m)],
          events := st₃.events ++ [.messageSent m] }, .ok m)

/-- The loop body of `ChatProtocol.broadcast` for one `[peerId, session]`
entry of the map: skip inactive sessions, otherwise attempt `sendMessage`;
`Promise.allSettled` keeps going whatever the outcome, so the state returned
by `sendMessage` is kept on success and failure alike. -/
def broadcastStep (content roomId : String) (acc : ProtoState × List String)
    (entry : String × Nat) : ProtoState × List String :=
  match lookupA entry.2 acc.1.store with
  | none => acc
  | some s =>
    if s.isActive then
      ((sendMessage entry.1 content roomId acc.1).1, acc.2 ++ [entry.1])
    else
      acc

/-- Method `ChatProtocol.broadcast`: fold the loop body over the session map,
returning the final state and the list of peers for which a send was
attempted. -/
def broadcast (content roomId : String) (st : ProtoState) :
    ProtoState × List String :=
  st.registry.foldl (broadcastStep content roomId) (st, [])

/-- The live sessions for a peer: every session object created so far that
carries this peer id and is still active, registered or not. -/
def liveSessionsFor (p : String) (st : ProtoState) : List (Nat × ChatSession) :=
  st.store.filter fun e => e.2.peerId = p ∧ e.2.isActive = true

/-! ## Specification-side definitions

Two definitions below follow the specification's words rather than the
source, for comparison with the source-derived definitions. -/

/-- The frame layout §6 of the specification asserts: a 4-byte big-endian
unsigned length followed by the payload.  Stated from the spec's words, to
be compared with `wireFrame`. -/
def specFrame4BE (payload : List Nat) : List Nat :=
  [payload.length / 16777216 % 256, payload.length / 65536 % 256,
   payload.length / 256 % 256, payload.length % 256] ++ payload

/-- The room-id computation §4.5 of the specification describes: sort the
two peer identifiers, concatenate with a separator, run a fast
non-cryptographic 32-bit hash twice with two different seeds, and
concatenate the two hex-encoded outputs.  Stated from the spec's words,
instantiated with the repository's own 32-bit hash and seeds (the
`roomIdForPeers` computation of the browser example), to be compared with
`generateRoomId`. -/
def specRoomId (peerA peerB : String) : String :=
  let lowHigh := sortPair peerA peerB
  let base := lowHigh.1 ++ ":" ++ lowHigh.2
  toHexPad 8 (xxHash32 base 0) ++ toHexPad 8 (xxHash32 base 0x9e3779b9)

/-! ## Statement helpers -/

/-- The `origin_ts` field of an envelope (0 when absent). -/
def Envelope.originTsField : Envelope → Nat
  | .roomMessage _ _ ts .. => ts
  | _ => 0

/-- The registry entries whose stored session is active, paired with that
session: the sessions `broadcast` attempts to send to. -/
def activeEntries (entries : List (String × Nat)) (store : List (Nat × ChatSession)) :
    List ((String × Nat) × ChatSession) :=
  entries.filterMap fun e =>
    (lookupA e.2 store).bind fun s => if s.isActive then some (e, s) else none

/-- The per-recipient outcome of a broadcast over the given active entries:
each recipient, its session at broadcast time, and the `m.room.message`
envelope constructed for it (fresh timestamp and event id per recipient,
`seq` from that recipient's session). -/
def broadcastOutcomes (selfId content roomId : String) (ctr : Nat) :
    List ((String × Nat) × ChatSession) → List ((String × Nat) × (ChatSession × Envelope))
  | [] => []
  | es :: rest =>
    (es.1, es.2,
      Envelope.roomMessage selfId roomId ctr es.2.seq (generateEventId ctr) content) ::
    broadcastOutcomes selfId content roomId (ctr + 1) rest

/-! ## Concrete states used by witnesses and counterexamples -/

/-- A fresh coordinator. -/
def stEmpty : ProtoState :=
  ProtoState.init "QmSelf"

/-- The state after an inbound stream from peer `"P"` created a session. -/
def stInbound : ProtoState :=
  (handleIncomingStream "P" true stEmpty).1

/-- The race interleaving: `openStream("P")` passed its registry check on
`stEmpty`, its dial suspended, the inbound stream from `"P"` registered a
session (`stInbound`), and then the dial resolved and `openStream`'s
continuation ran. -/
def stRace : ProtoState :=
  (openStreamRegister "P" true stInbound).1

/-- Three registered sessions, all active; the stream sink of `"B"` fails
writes. -/
def stThree : ProtoState :=
  ⟨"QmSelf",
   [("A", 0), ("B", 1), ("C", 2)],
   [(0, ChatSession.new true "A"), (1, ChatSession.new false "B"),
    (2, ChatSession.new true "C")],
   3, [], [], 0⟩

/-! ## Association-list lemmas -/

theorem lookupA_eq_none {α β : Type} [DecidableEq α] (k : α) (l : List (α × β))
    (h : k ∉ l.map Prod.fst) : lookupA k l = none := by
  induction l with
  | nil => rfl
  | cons e rest ih =>
    simp only [List.map_cons, List.mem_cons] at h
    push_neg at h
    simp [lookupA, Ne.symm h.1, ih h.2]

theorem lookupA_mem_of_nodup {α β : Type} [DecidableEq α] {k : α} {v : β}
    {l : List (α × β)} (h : (l.map Prod.fst).Nodup) (hm : (k, v) ∈ l) :
    lookupA k l = some v := by
  induction l with
  | nil => cases hm
  | cons e rest ih =>
    simp only [List.map_cons, List.nodup_cons] at h
    rcases List.mem_cons.mp hm with h1 | h1
    · subst h1; simp [lookupA]
    · have hk : e.1 ≠ k := by
        rintro rfl
        exact h.1 (List.mem_map.mpr ⟨(e.1, v), h1, rfl⟩)
      simp [lookupA, hk, ih h.2 h1]

theorem lookupA_setAssoc_self {α β : Type} [DecidableEq α] (k : α) (v : β)
    (l : List (α × β)) : lookupA k (setAssoc k v l) = some v := by
  induction l with
  | nil => simp [setAssoc, lookupA]
  | cons e rest ih =>
    by_cases h : e.1 = k <;> simp [setAssoc, lookupA, h, ih]

theorem lookupA_setAssoc_ne {α β : Type} [DecidableEq α] {k k' : α} (v : β)
    (l : List (α × β)) (h : k' ≠ k) :
    lookupA k' (setAssoc k v l) = lookupA k' l := by
  induction l with
  | nil => simp [setAssoc, lookupA, Ne.symm h]
  | cons e rest ih =>
    by_cases he : e.1 = k
    · subst he; simp [setAssoc, lookupA, Ne.symm h]
    · by_cases he' : e.1 = k' <;> simp [setAssoc, lookupA, he, he', ih, h]

theorem lookupA_delAssoc_ne {α β : Type} [DecidableEq α] {k k' : α}
    (l : List (α × β)) (h : k' ≠ k) :
    lookupA k' (delAssoc k l) = lookupA k' l := by
  induction l with
  | nil => rfl
  | cons e rest ih =>
    by_cases he : e.1 = k
    · subst he; simp [delAssoc, lookupA, Ne.symm h]
    · by_cases he' : e.1 = k' <;> simp [delAssoc, lookupA, he, he', ih, h]

theorem lookupA_delAssoc_self {α β : Type} [DecidableEq α] (k : α)
    (l : List (α × β)) (h : (l.map Prod.fst).Nodup) :
    lookupA k (delAssoc k l) = none := by
  induction l with
  | nil => rfl
  | cons e rest ih =>
    simp only [List.map_cons, List.nodup_cons] at h
    by_cases he : e.1 = k
    · subst he
      simp only [delAssoc, if_pos rfl]
      exact lookupA_eq_none _ _ h.1
    · simp [delAssoc, lookupA, he, ih h.2]

theorem mem_keys_setAssoc {α β : Type} [DecidableEq α] {x k : α} {v : β}
    {l : List (α × β)} :
    x ∈ (setAssoc k v l).map Prod.fst → x ∈ l.map Prod.fst ∨ x = k := by
  induction l with
  | nil =>
    intro h
    simpa [setAssoc] using h
  | cons e rest ih =>
    intro h
    by_cases he : e.1 = k
    · subst he
      simp only [setAssoc, eq_self_iff_true, if_true, List.map_cons, List.mem_cons] at h
      rcases h with h | h
      · exact Or.inr h
      · exact Or.inl (List.mem_cons.mpr (Or.inr h))
    · simp only [setAssoc, if_neg he, List.map_cons, List.mem_cons] at h ⊢
      rcases h with h | h
      · exact Or.inl (Or.inl h)
      · rcases ih h with h₂ | h₂
        · exact Or.inl (Or.inr h₂)
        · exact Or.inr h₂

theorem nodupKeys_setAssoc {α β : Type} [DecidableEq α] (k : α) (v : β)
    (l : List (α × β)) (h : (l.map Prod.fst).Nodup) :
    ((setAssoc k v l).map Prod.fst).Nodup := by
  induction l with
  | nil => simp [setAssoc]
  | cons e rest ih =>
    simp only [List.map_cons, List.nodup_cons] at h
    by_cases he : e.1 = k
    · subst he
      simpa [setAssoc] using h
    · simp only [setAssoc, if_neg he, List.map_cons, List.nodup_cons]
      refine ⟨fun hmem => ?_, ih h.2⟩
      rcases mem_keys_setAssoc hmem with h₂ | h₂
      · exact h.1 h₂
      · exact he h₂

/-! ## Order and injectivity facts for the JavaScript string sort -/

theorem unitsLt_asymm : ∀ u v : List Nat, unitsLt u v = true → unitsLt v u = false := by
  intro u
  induction u with
  | nil =>
    intro v h
    cases v with
    | nil => simpa [unitsLt] using h
    | cons y ys => simp [unitsLt]
  | cons x xs ih =>
    intro v h
    cases v with
    | nil => simpa [unitsLt] using h
    | cons y ys =>
      simp only [unitsLt] at h ⊢
      rcases Nat.lt_trichotomy x y with hxy | hxy | hxy
      · simp [hxy, Nat.lt_asymm hxy, Nat.ne_of_gt hxy]
      · subst hxy
        simp only [lt_irrefl, if_false] at h ⊢
        exact ih ys h
      · simp [hxy, Nat.lt_asymm hxy] at h

theorem unitsLt_total_eq : ∀ u v : List Nat,
    unitsLt u v = false → unitsLt v u = false → u = v := by
  intro u
  induction u with
  | nil =>
    intro v h _
    cases v with
    | nil => rfl
    | cons y ys => simp [unitsLt] at h
  | cons x xs ih =>
    intro v h h'
    cases v with
    | nil => simp [unitsLt] at h'
    | cons y ys =>
      simp only [unitsLt] at h h'
      rcases Nat.lt_trichotomy x y with hxy | hxy | hxy
      · simp [hxy] at h
      · subst hxy
        simp only [lt_irrefl, if_false] at h h'
        exact congrArg (x :: ·) (ih ys h h')
      · simp [hxy, Nat.lt_asymm hxy] at h'

theorem char_toNat_injective {a b : Char} (h : a.toNat = b.toNat) : a = b := by
  have h₂ := congrArg Char.ofNat h
  rwa [Char.ofNat_toNat, Char.ofNat_toNat] at h₂

theorem utf16CharUnits_ne_nil (c : Char) : utf16CharUnits c ≠ [] := by
  unfold utf16CharUnits
  by_cases h : c.toNat < 0x10000 <;> simp [h]

theorem utf16CharUnits_append_inj (c d : Char) (xs ys : List Nat)
    (h : utf16CharUnits c ++ xs = utf16CharUnits d ++ ys) : c = d ∧ xs = ys := by
  have hc : c.toNat < 0xD800 ∨ 0xE000 ≤ c.toNat ∧ c.toNat < 0x110000 := c.valid
  have hd : d.toNat < 0xD800 ∨ 0xE000 ≤ d.toNat ∧ d.toNat < 0x110000 := d.valid
  unfold utf16CharUnits at h
  by_cases h1 : c.toNat < 0x10000
  · by_cases h2 : d.toNat < 0x10000
    · simp only [h1, h2, if_true, List.cons_append, List.nil_append,
        List.cons.injEq] at h
      exact ⟨char_toNat_injective h.1, h.2⟩
    · exfalso
      simp only [h1, h2, if_true, if_false, List.cons_append, List.nil_append,
        List.cons.injEq] at h
      have hdm : (d.toNat - 0x10000) / 0x400 < 0x400 := by
        rcases hd with hd | hd
        · omega
        · exact Nat.div_lt_of_lt_mul (by omega)
      rcases hc with hc | hc <;> omega
  · by_cases h2 : d.toNat < 0x10000
    · exfalso
      simp only [h1, h2, if_true, if_false, List.cons_append, List.nil_append,
        List.cons.injEq] at h
      have hcm : (c.toNat - 0x10000) / 0x400 < 0x400 := by
        rcases hc with hc | hc
        · omega
        · exact Nat.div_lt_of_lt_mul (by omega)
      rcases hd with hd | hd <;> omega
    · simp only [h1, h2, if_false, List.cons_append, List.nil_append,
        List.cons.injEq] at h
      have heq : c.toNat = d.toNat := by omega
      exact ⟨char_toNat_injective heq, h.2.2⟩

theorem utf16Units_inj : ∀ cs ds : List Char, utf16Units cs = utf16Units ds → cs = ds := by
  intro cs
  induction cs with
  | nil =>
    intro ds h
    cases ds with
    | nil => rfl
    | cons d ds' =>
      exfalso
      simp only [utf16Units, List.map_nil, List.flatten_nil, List.map_cons,
        List.flatten_cons] at h
      rcases List.append_eq_nil.mp h.symm with ⟨h₂, _⟩
      exact utf16CharUnits_ne_nil d h₂
  | cons c cs' ih =>
    intro ds h
    cases ds with
    | nil =>
      exfalso
      simp only [utf16Units, List.map_nil, List.flatten_nil, List.map_cons,
        List.flatten_cons] at h
      rcases List.append_eq_nil.mp h with ⟨h₂, _⟩
      exact utf16CharUnits_ne_nil c h₂
    | cons d ds' =>
      simp only [utf16Units, List.map_cons, List.flatten_cons] at h
      have h₂ := utf16CharUnits_append_inj c d _ _ h
      refine congrArg₂ (· :: ·) h₂.1 (ih ds' ?_)
      simpa [utf16Units] using h₂.2

theorem jsStringLt_total_eq {a b : String} (h : jsStringLt a b = false)
    (h' : jsStringLt b a = false) : a = b := by
  have hu := unitsLt_total_eq _ _ h h'
  have hd := utf16Units_inj _ _ hu
  cases a
  cases b
  exact congrArg String.mk hd

theorem sortPair_comm (a b : String) : sortPair a b = sortPair b a := by
  unfold sortPair
  cases hba : jsStringLt b a
  · cases hab : jsStringLt a b
    · have hab₂ : a = b := jsStringLt_total_eq hab hba
      subst hab₂
      simp
    · simp
  · cases hab : jsStringLt a b
    · simp
    · exfalso
      have h₂ := unitsLt_asymm _ _ hab
      rw [jsStringLt] at hba
      rw [h₂] at hba
      cases hba

/-! ## Room-id theorems (claims C4 and C5) -/

/-- C4: for every pair of peer identifiers, `generateRoomId` is symmetric,
and two calls with the same unordered pair produce the same identifier. -/
theorem generateRoomId_symm_det (a b x y : String)
    (h : (x = a ∧ y = b) ∨ (x = b ∧ y = a)) :
    generateRoomId x y = generateRoomId a b := by
  rcases h with ⟨rfl, rfl⟩ | ⟨rfl, rfl⟩
  · rfl
  · unfold generateRoomId
    rw [sortPair_comm]

/-- Witness for C4 at a concrete peer pair. -/
theorem generateRoomId_symm_det_witness :
    generateRoomId "QmPeerB" "QmPeerA" = generateRoomId "QmPeerA" "QmPeerB" :=
  generateRoomId_symm_det "QmPeerA" "QmPeerB" "QmPeerB" "QmPeerA" (Or.inr ⟨rfl, rfl⟩)

theorem hexChars_length (w : Nat) : ∀ n : Nat, (hexChars w n).length = w := by
  induction w with
  | zero => intro n; rfl
  | succ w ih =>
    intro n
    simp [hexChars, ih]

theorem foldl_append_length : ∀ (l : List String) (acc : String),
    (l.foldl (fun r s => r ++ s) acc).length = acc.length + (l.map String.length).sum := by
  intro l
  induction l with
  | nil => intro acc; simp
  | cons x xs ih =>
    intro acc
    simp [ih, String.length_append]
    omega

theorem bytesToHex_length (bs : List Nat) : (bytesToHex bs).length = 2 * bs.length := by
  unfold bytesToHex String.join
  rw [foldl_append_length]
  have h : ∀ cs : List Nat, (List.map (String.length ∘ toHexPad 2) cs).sum = 2 * cs.length := by
    intro cs
    induction cs with
    | nil => rfl
    | cons c cs ih =>
      have hl : (toHexPad 2 c).length = 2 := hexChars_length 2 c
      simp only [List.map_cons, List.sum_cons, Function.comp_apply, hl, ih,
        List.length_cons]
      omega
  simp [List.map_map, h]

theorem sha256Bytes_length (msg : List Nat) : (sha256Bytes msg).length = 32 := by
  unfold sha256Bytes
  simp [List.length_flatMap]

set_option maxRecDepth 200000 in
/-- C5 counterexample: at the peer pair `("QmPeerA", "QmPeerB")`,
`generateRoomId` (SHA-256, truncated hex) produces neither the seeded
double 32-bit hash the specification describes (`specRoomId`) nor the
browser example's `roomIdForPeers` output. -/
theorem generateRoomId_not_specRoomId :
    generateRoomId "QmPeerA" "QmPeerB" = "73be3e46c40be7d9" ∧
    specRoomId "QmPeerA" "QmPeerB" = "27287363c05dfe71" ∧
    roomIdForPeers "QmPeerA" "QmPeerB" = "!dm_27287363c05dfe71" ∧
    generateRoomId "QmPeerA" "QmPeerB" ≠ specRoomId "QmPeerA" "QmPeerB" ∧
    generateRoomId "QmPeerA" "QmPeerB" ≠ roomIdForPeers "QmPeerA" "QmPeerB" := by
  refine ⟨by decide, by decide, by decide, by decide, by decide⟩

/-- C5 (amended): the room identifier is computed by sorting the two peer
identifiers, joining them with `":"`, hashing the UTF-8 bytes with SHA-256,
hex-encoding the digest, and keeping the first 16 hex characters; the
result always has length 16. -/
theorem generateRoomId_sha256_truncated (a b : String) :
    generateRoomId a b =
      String.mk ((bytesToHex (sha256Bytes (utf8Bytes
        ((sortPair a b).1 ++ ":" ++ (sortPair a b).2)))).data.take 16) ∧
    (generateRoomId a b).length = 16 := by
  refine ⟨rfl, ?_⟩
  show ((bytesToHex (sha256Bytes (utf8Bytes
    ((sortPair a b).1 ++ ":" ++ (sortPair a b).2)))).data.take 16).length = 16
  rw [List.length_take]
  have h : (bytesToHex (sha256Bytes (utf8Bytes
      ((sortPair a b).1 ++ ":" ++ (sortPair a b).2)))).data.length = 64 := by
    have h₂ := bytesToHex_length (sha256Bytes (utf8Bytes
      ((sortPair a b).1 ++ ":" ++ (sortPair a b).2)))
    rw [sha256Bytes_length] at h₂
    exact h₂
  rw [h]
  decide

/-! ## Frame-format theorems (claim C2) -/

set_option maxRecDepth 200000 in
/-- C2 counterexample: the frame the outbound pipe emits for the `hello`
envelope is not the 4-byte big-endian-length frame the specification
asserts (`lp.encode` writes a varint header, here a single byte). -/
theorem wireFrame_not_fourByteBE :
    wireFrame (.hello "QmSelf") ≠
      specFrame4BE (Envelope.payloadBytes (.hello "QmSelf")) := by
  decide

/-- C2 (amended): every frame written for an envelope is the unsigned-varint
length header followed by the UTF-8 JSON payload, and the JSON text opens
with the string `type` discriminant of the envelope. -/
theorem wireFrame_varint_json (e : Envelope) :
    wireFrame e = varintBytes e.payloadBytes.length ++ e.payloadBytes ∧
    ∃ rest, e.serialize = "\x7b\"type\":" ++ jsonString e.typeOf ++ rest := by
  refine ⟨rfl, ?_⟩
  cases e with
  | hello sender =>
    refine ⟨",\"sender\":" ++ jsonString sender ++
      ",\"protocol_version\":\"length-prefixed-v1\"," ++
      "\"capabilities\":\x7b\"v\":1,\"maxFrame\":131072\x7d\x7d", ?_⟩
    simp only [Envelope.serialize, Envelope.typeOf]
    rw [(by decide : jsonString "hello" = "\"hello\"")]
    simp [String.append_assoc]
    conv_rhs => rw [← String.append_assoc]
    rw [(by decide : ("\x7b\"type\":\"hello\"" : String) ++ ",\"sender\":" =
      "\x7b\"type\":\"hello\",\"sender\":")]
  | roomMessage sender roomId originTs seq eventId body =>
    refine ⟨",\"sender\":" ++ jsonString sender ++
      ",\"room_id\":" ++ jsonString roomId ++
      ",\"origin_ts\":" ++ toString originTs ++
      ",\"seq\":" ++ toString seq ++
      ",\"event_id\":" ++ jsonString eventId ++
      ",\"content\":\x7b\"msgtype\":\"m.text\",\"body\":" ++ jsonString body ++
      "\x7d\x7d", ?_⟩
    simp only [Envelope.serialize, Envelope.typeOf]
    rw [(by decide : jsonString "m.room.message" = "\"m.room.message\"")]
    simp [String.append_assoc]
    conv_rhs => rw [← String.append_assoc]
    rw [(by decide : ("\x7b\"type\":\"m.room.message\"" : String) ++ ",\"sender\":" =
      "\x7b\"type\":\"m.room.message\",\"sender\":")]
  | typing sender isTyping =>
    refine ⟨",\"sender\":" ++ jsonString sender ++
      ",\"typing\":" ++ jsonBool isTyping ++ "\x7d", ?_⟩
    simp only [Envelope.serialize, Envelope.typeOf]
    rw [(by decide : jsonString "m.typing" = "\"m.typing\"")]
    simp [String.append_assoc]
    conv_rhs => rw [← String.append_assoc]
    rw [(by decide : ("\x7b\"type\":\"m.typing\"" : String) ++ ",\"sender\":" =
      "\x7b\"type\":\"m.typing\",\"sender\":")]
  | nicknameUpdate sender nickname =>
    refine ⟨",\"sender\":" ++ jsonString sender ++
      ",\"nickname\":" ++ jsonString nickname ++ "\x7d", ?_⟩
    simp only [Envelope.serialize, Envelope.typeOf]
    rw [(by decide : jsonString "m.nickname" = "\"m.nickname\"")]
    simp [String.append_assoc]
    conv_rhs => rw [← String.append_assoc]
    rw [(by decide : ("\x7b\"type\":\"m.nickname\"" : String) ++ ",\"sender\":" =
      "\x7b\"type\":\"m.nickname\",\"sender\":")]
  | unknown tag =>
    exact ⟨"\x7d", rfl⟩

/-! ## Send contract (claim C8) -/

/-- C8: `ChatSession.send` fails with the session-inactive error exactly
when the session has already closed; on an active session it appends the
envelope to the outbound queue and bumps `seq`, consulting neither any
handshake state (the session has none) nor the stream (the push does not
block on, or inspect, the sink). -/
theorem send_inactive_iff (s : ChatSession) (m : Envelope) :
    (s.send m = .error .sessionInactive ↔ s.isActive = false) ∧
    (s.isActive = true →
      s.send m = .ok { s with outbound := s.outbound ++ [m], seq := s.seq + 1 }) := by
  unfold ChatSession.send
  cases h : s.isActive <;> simp [h]

/-- Witness for C8: a fresh session accepts the envelope, the same session
after `close()` raises the session-inactive error. -/
theorem send_inactive_iff_witness :
    ((ChatSession.new true "P").send (.typing "P" true) =
      .ok { ChatSession.new true "P" with outbound := [.typing "P" true], seq := 1 }) ∧
    ((ChatSession.new true "P").close.1.send (.typing "P" true) =
      .error .sessionInactive) := by
  constructor
  · have h := (send_inactive_iff (ChatSession.new true "P") (.typing "P" true)).2 rfl
    simpa [ChatSession.new] using h
  · exact (send_inactive_iff ((ChatSession.new true "P").close.1)
      (.typing "P" true)).1.mpr (by decide)

/-! ## Unknown envelope types (claim C9) -/

/-- C9 (amended): an envelope whose discriminant matches no registered
handler is only logged and dropped: the coordinator state is completely
unchanged — no event is forwarded to collaborators, no history is written,
no error is raised, and every session (registry and store) stays exactly as
it was, in particular open. -/
theorem unknown_type_dropped (st : ProtoState) (p tag : String)
    (h1 : tag ≠ "hello") (h2 : tag ≠ "m.room.message")
    (h3 : tag ≠ "m.typing") (h4 : tag ≠ "m.nickname") :
    handleMessage (.unknown tag) p st = st := by
  unfold handleMessage
  simp [Envelope.typeOf, h1, h2, h3, h4]

/-- Witness for C9 at the spec's own example discriminant. -/
theorem unknown_type_dropped_witness :
    handleMessage (.unknown "m.unknown.future") "P" stInbound = stInbound :=
  unknown_type_dropped stInbound "P" "m.unknown.future"
    (by decide) (by decide) (by decide) (by decide)

/-- C9 counterexample: the `m.unknown.future` envelope is *not* forwarded to
collaborators — no event is emitted and nothing reaches persistence; the
true parts of the claim hold (the session stays registered, open and
active). -/
theorem unknown_type_not_forwarded :
    (handleMessage (.unknown "m.unknown.future") "P" stInbound).events =
      stInbound.events ∧
    (handleMessage (.unknown "m.unknown.future") "P" stInbound).history =
      stInbound.history ∧
    lookupA "P" (handleMessage (.unknown "m.unknown.future") "P" stInbound).registry =
      some 0 ∧
    (lookupA 0 (handleMessage (.unknown "m.unknown.future") "P" stInbound).store).map
      ChatSession.isActive = some true := by
  refine ⟨by decide, by decide, by decide, by decide⟩

/-! ## Close idempotence (claim C6) -/

/-- C6: the first `close` of a registered active session performs the
cleanup — the stored session becomes inactive with its outbound queue
ended, the registry entry is removed, and exactly one `chat:disconnected`
event is emitted — while a second `close` (through the coordinator or on
the session object itself) is a no-op. -/
theorem close_idempotent (st : ProtoState) (p : String) (sid : Nat)
    (s : ChatSession)
    (hreg : lookupA p st.registry = some sid)
    (hstore : lookupA sid st.store = some s)
    (hact : s.isActive = true)
    (hpeer : s.peerId = p)
    (hnodup : (st.registry.map Prod.fst).Nodup) :
    lookupA sid (closeSession p st).store =
      some { s with isActive := false, outboundEnded := true } ∧
    lookupA p (closeSession p st).registry = none ∧
    (closeSession p st).events = st.events ++ [.chatDisconnected p] ∧
    (closeSession p st).history = st.history ∧
    closeSession p (closeSession p st) = closeSession p st ∧
    s.close.1.close = (s.close.1, false) := by
  have hclose : s.close = ({ s with isActive := false, outboundEnded := true }, true) := by
    unfold ChatSession.close
    rw [hact]
    simp
  have hstep : closeSession p st =
      { st with
          store := setAssoc sid { s with isActive := false, outboundEnded := true } st.store,
          registry := delAssoc p st.registry,
          events := st.events ++ [.chatDisconnected p] } := by
    simp only [closeSession, hreg, closeSessionId, hstore, hclose,
      handleSessionClose, hpeer, if_true]
  have hregnone : lookupA p (delAssoc p st.registry) = none :=
    lookupA_delAssoc_self p st.registry hnodup
  refine ⟨?_, ?_, ?_, ?_, ?_, ?_⟩
  · rw [hstep]
    exact lookupA_setAssoc_self sid _ st.store
  · rw [hstep]
    exact hregnone
  · rw [hstep]
  · rw [hstep]
  · have h1 : lookupA p (closeSession p st).registry = none := by
      rw [hstep]
      exact hregnone
    generalize hgen : closeSession p st = st₁ at h1 ⊢
    unfold closeSession
    rw [h1]
  · rw [hclose]
    unfold ChatSession.close
    simp

/-- Witness for C6 on the inbound-created session for `"P"`. -/
theorem close_idempotent_witness :
    lookupA 0 (closeSession "P" stInbound).store =
      some ⟨"P", true, false, [.hello "QmSelf"], true, 1⟩ ∧
    lookupA "P" (closeSession "P" stInbound).registry = none ∧
    (closeSession "P" stInbound).events =
      stInbound.events ++ [.chatDisconnected "P"] ∧
    (closeSession "P" stInbound).history = stInbound.history ∧
    closeSession "P" (closeSession "P" stInbound) = closeSession "P" stInbound := by
  have h := close_idempotent stInbound "P" 0
    ⟨"P", true, true, [.hello "QmSelf"], false, 1⟩
    (by decide) (by decide) rfl rfl (by decide)
  exact ⟨h.1, h.2.1, h.2.2.1, h.2.2.2.1, h.2.2.2.2.1⟩

/-! ## Session-creation steps -/

/-- Evaluation of `handleIncomingStream` for a peer with no registered
session: a session is created and registered, the `hello` handshake is
queued on it, and `chat:connected` is emitted. -/
theorem handleIncomingStream_new (st : ProtoState) (p : String) (sink : Bool)
    (hfree : lookupA p st.registry = none) :
    handleIncomingStream p sink st =
      ({ st with
          registry := setAssoc p st.nextId st.registry,
          store := setAssoc st.nextId
            { ChatSession.new sink p with
                outbound := [.hello st.selfPeerId], seq := 1 }
            (setAssoc st.nextId (ChatSession.new sink p) st.store),
          nextId := st.nextId + 1,
          events := st.events ++ [.chatConnected p] }, false) := by
  simp only [handleIncomingStream, hfree, Option.isSome_none, Bool.false_eq_true,
    if_false, ProtoState.registerNew, ProtoState.sendTo, lookupA_setAssoc_self,
    ChatSession.send, ChatSession.new, if_true, Except.map, List.nil_append]

/-- Evaluation of `openStreamRegister` (the continuation of `openStream`
after the dial): unconditional creation and registration. -/
theorem openStreamRegister_eq (st : ProtoState) (p : String) (sink : Bool) :
    openStreamRegister p sink st =
      ({ st with
          registry := setAssoc p st.nextId st.registry,
          store := setAssoc st.nextId
            { ChatSession.new sink p with
                outbound := [.hello st.selfPeerId], seq := 1 }
            (setAssoc st.nextId (ChatSession.new sink p) st.store),
          nextId := st.nextId + 1,
          events := st.events ++ [.chatConnected p] }, st.nextId) := by
  simp only [openStreamRegister, ProtoState.registerNew, ProtoState.sendTo,
    lookupA_setAssoc_self, ChatSession.send, ChatSession.new, if_true,
    Except.map, List.nil_append]

/-! ## Handshake theorems (claim C3) -/

/-- C3 (amended): a `hello` envelope is enqueued exactly once when a session
is created — on the inbound-stream path and on the dial path alike — and
receiving the peer's `hello` emits the handshake event without sending
anything, so the two sides' hellos cross because each side sends at its own
session creation, not as a reply. -/
theorem hello_once_no_reply (st : ProtoState) (p : String) (sink : Bool)
    (m : Envelope)
    (hfree : lookupA p st.registry = none)
    (hm : m.typeOf = "hello") :
    lookupA st.nextId (handleIncomingStream p sink st).1.store =
      some { ChatSession.new sink p with
              outbound := [.hello st.selfPeerId], seq := 1 } ∧
    lookupA st.nextId (openStream p sink st).1.store =
      some { ChatSession.new sink p with
              outbound := [.hello st.selfPeerId], seq := 1 } ∧
    (handleMessage m p st).store = st.store ∧
    (handleMessage m p st).events = st.events ++ [.peerHandshake p] ∧
    (handleMessage m p st).history = st.history := by
  have hmsg : handleMessage m p st =
      { st with events := st.events ++ [.peerHandshake p] } := by
    unfold handleMessage
    rw [hm]
    simp
  refine ⟨?_, ?_, ?_, ?_, ?_⟩
  · rw [handleIncomingStream_new st p sink hfree]
    exact lookupA_setAssoc_self ..
  · have hopen : openStream p sink st = openStreamRegister p sink st := by
      unfold openStream openStreamCheck
      rw [hfree]
    rw [hopen, openStreamRegister_eq]
    exact lookupA_setAssoc_self ..
  · rw [hmsg]
  · rw [hmsg]
  · rw [hmsg]

/-- Witness for C3: creating the inbound session for `"P"` queues exactly
one hello, and handling the peer's hello leaves the queue at one hello
while emitting the handshake event. -/
theorem hello_once_no_reply_witness :
    lookupA 0 (handleIncomingStream "P" true stEmpty).1.store =
      some ⟨"P", true, true, [.hello "QmSelf"], false, 1⟩ ∧
    (handleMessage (.hello "P") "P" stEmpty).store = stEmpty.store ∧
    (handleMessage (.hello "P") "P" stEmpty).events =
      stEmpty.events ++ [.peerHandshake "P"] := by
  have h := hello_once_no_reply stEmpty "P" true (.hello "P") (by decide) rfl
  exact ⟨h.1, h.2.2.1, h.2.2.2.1⟩

/-- C3 counterexample: on the inbound-created session for `"P"`, receiving
the peer's `hello` does not send a second `hello` — the session's outbound
queue still holds exactly the one creation-time hello and the whole store
is untouched; only the handshake event is emitted. -/
theorem hello_reply_not_sent :
    (lookupA 0 stInbound.store).map ChatSession.outbound =
      some [Envelope.hello "QmSelf"] ∧
    (handleMessage (.hello "P") "P" stInbound).store = stInbound.store ∧
    (lookupA 0 (handleMessage (.hello "P") "P" stInbound).store).map
      ChatSession.outbound = some [Envelope.hello "QmSelf"] ∧
    (handleMessage (.hello "P") "P" stInbound).events =
      stInbound.events ++ [Event.peerHandshake "P"] := by
  refine ⟨by decide, by decide, by decide, by decide⟩

/-! ## Registry exclusivity (claim C1) -/

/-- C1 (amended): a duplicate inbound stream for an already-registered peer
is suppressed atomically — the new stream is closed and the state, the
existing session included, is untouched; an uninterrupted `openStream` call
for a registered peer returns the registered session id without changing
anything; and both operations keep at most one registry entry per peer.
(When a session is registered for the peer between `openStream`'s registry
check and the completion of its dial, the post-dial registration *does*
overwrite it — see the counterexample.) -/
theorem registry_one_session_per_peer (st : ProtoState) (p : String)
    (sid : Nat) (sink : Bool)
    (hreg : lookupA p st.registry = some sid)
    (hnodup : (st.registry.map Prod.fst).Nodup) :
    handleIncomingStream p sink st = (st, true) ∧
    openStream p sink st = (st, sid) ∧
    (∀ q sink₂,
      (((handleIncomingStream q sink₂ st).1.registry.map Prod.fst).Nodup ∧
       ((openStream q sink₂ st).1.registry.map Prod.fst).Nodup)) := by
  refine ⟨?_, ?_, ?_⟩
  · unfold handleIncomingStream
    rw [hreg]
    simp
  · unfold openStream openStreamCheck
    rw [hreg]
  · intro q sink₂
    constructor
    · by_cases hq : (lookupA q st.registry).isSome
      · unfold handleIncomingStream
        rw [if_pos hq]
        exact hnodup
      · rw [handleIncomingStream_new st q sink₂ (Option.not_isSome_iff_eq_none.mp hq)]
        exact nodupKeys_setAssoc q st.nextId st.registry hnodup
    · unfold openStream openStreamCheck
      cases hq : lookupA q st.registry with
      | some sid₂ => exact hnodup
      | none =>
        rw [openStreamRegister_eq]
        exact nodupKeys_setAssoc q st.nextId st.registry hnodup

/-- Witness for C1 on the single-session state: the duplicate inbound
stream is closed with nothing changed, and `openStream` returns the
existing session. -/
theorem registry_one_session_per_peer_witness :
    handleIncomingStream "P" true stInbound = (stInbound, true) ∧
    openStream "P" true stInbound = (stInbound, 0) := by
  have h := registry_one_session_per_peer stInbound "P" 0 true (by decide) (by decide)
  exact ⟨h.1, h.2.1⟩

/-- C1 counterexample: the race interleaving.  `openStream("P")` checks the
registry of the empty state (no session), suspends for its dial; the inbound
stream from `"P"` arrives and registers session 0; the dial resolves and
`openStream`'s continuation registers session 1, overwriting the registry
entry while session 0 is still active — two live sessions for `"P"` exist
at once, so `openStream` did register a second session for an
already-registered peer. -/
theorem openStream_race_two_live_sessions :
    openStreamCheck "P" stEmpty = none ∧
    (handleIncomingStream "P" true stEmpty).2 = false ∧
    lookupA "P" stInbound.registry = some 0 ∧
    lookupA "P" stRace.registry = some 1 ∧
    (lookupA 0 stRace.store).map ChatSession.isActive = some true ∧
    (lookupA 1 stRace.store).map ChatSession.isActive = some true ∧
    (liveSessionsFor "P" stRace).length = 2 := by
  refine ⟨rfl, by decide, by decide, by decide, by decide, by decide, by decide⟩

/-! ## Broadcast machinery (claims C7 and C10) -/

/-- Evaluation of `sendMessage` when the peer already has a registered,
active session: the message is built from the session's `seq` and a fresh
counter draw, queued on the session, appended to history, and announced
with `message:sent`. -/
theorem sendMessage_registered (st : ProtoState) (p content roomId : String)
    (sid : Nat) (s : ChatSession)
    (hreg : lookupA p st.registry = some sid)
    (hstore : lookupA sid st.store = some s)
    (hact : s.isActive = true) :
    sendMessage p content roomId st =
      ({ st with
          store := setAssoc sid
            { s with
                outbound := s.outbound ++
                  [Envelope.roomMessage st.selfPeerId roomId st.eventCounter s.seq
                    (generateEventId st.eventCounter) content],
                seq := s.seq + 1 } st.store,
          events := st.events ++
            [.messageSent (Envelope.roomMessage st.selfPeerId roomId st.eventCounter
              s.seq (generateEventId st.eventCounter) content)],
          history := st.history ++
            [(roomId, Envelope.roomMessage st.selfPeerId roomId st.eventCounter s.seq
              (generateEventId st.eventCounter) content)],
          eventCounter := st.eventCounter + 1 },
        .ok (Envelope.roomMessage st.selfPeerId roomId st.eventCounter s.seq
          (generateEventId st.eventCounter) content)) := by
  simp only [sendMessage, hreg, hstore, ProtoState.sendTo, ChatSession.send, hact,
    if_true, Except.map]

/-- Helper `activeEntries` only depends on the store through the entries' own
session ids. -/
theorem activeEntries_congr :
    ∀ (entries : List (String × Nat)) (store₁ store₂ : List (Nat × ChatSession)),
      (∀ e ∈ entries, lookupA e.2 store₁ = lookupA e.2 store₂) →
      activeEntries entries store₁ = activeEntries entries store₂ := by
  intro entries
  induction entries with
  | nil => intro store₁ store₂ _; rfl
  | cons e rest ih =>
    intro store₁ store₂ h
    unfold activeEntries
    simp only [List.filterMap_cons]
    rw [h e (List.mem_cons_self ..)]
    have hrest := ih store₁ store₂ (fun e' he' => h e' (List.mem_cons_of_mem _ he'))
    unfold activeEntries at hrest
    rw [hrest]

/-- Unfolding of `broadcastOutcomes` on an active entry. -/
theorem broadcastOutcomes_cons (selfId content roomId : String) (ctr : Nat)
    (e : String × Nat) (s : ChatSession)
    (A : List ((String × Nat) × ChatSession)) :
    broadcastOutcomes selfId content roomId ctr ((e, s) :: A) =
      (e, s, Envelope.roomMessage selfId roomId ctr s.seq (generateEventId ctr)
        content) :: broadcastOutcomes selfId content roomId (ctr + 1) A := rfl

/-- The accumulated specification of `broadcast`'s fold over the session
map: every active session is attempted in order, the registry and
`selfPeerId` are untouched, each active session's queue gains exactly its
own envelope, and history, events and the fresh-id counter advance by one
per active session. -/
theorem broadcast_foldl_spec (content roomId : String) :
    ∀ (entries : List (String × Nat)) (cur : ProtoState) (acc : List String),
      (∀ e ∈ entries, lookupA e.1 cur.registry = some e.2) →
      (entries.map Prod.snd).Nodup →
      (entries.foldl (broadcastStep content roomId) (cur, acc)).1.selfPeerId =
        cur.selfPeerId ∧
      (entries.foldl (broadcastStep content roomId) (cur, acc)).1.registry =
        cur.registry ∧
      (entries.foldl (broadcastStep content roomId) (cur, acc)).2 =
        acc ++ (activeEntries entries cur.store).map (fun e => e.1.1) ∧
      (entries.foldl (broadcastStep content roomId) (cur, acc)).1.history =
        cur.history ++
          (broadcastOutcomes cur.selfPeerId content roomId cur.eventCounter
            (activeEntries entries cur.store)).map (fun o => (roomId, o.2.2)) ∧
      (entries.foldl (broadcastStep content roomId) (cur, acc)).1.events =
        cur.events ++
          (broadcastOutcomes cur.selfPeerId content roomId cur.eventCounter
            (activeEntries entries cur.store)).map
            (fun o => Event.messageSent o.2.2) ∧
      (entries.foldl (broadcastStep content roomId) (cur, acc)).1.eventCounter =
        cur.eventCounter + (activeEntries entries cur.store).length ∧
      (∀ sid, sid ∉ entries.map Prod.snd →
        lookupA sid (entries.foldl (broadcastStep content roomId) (cur, acc)).1.store =
          lookupA sid cur.store) ∧
      (∀ o ∈ broadcastOutcomes cur.selfPeerId content roomId cur.eventCounter
          (activeEntries entries cur.store),
        lookupA o.1.2
            (entries.foldl (broadcastStep content roomId) (cur, acc)).1.store =
          some { o.2.1 with
                  outbound := o.2.1.outbound ++ [o.2.2],
                  seq := o.2.1.seq + 1 }) := by
  intro entries
  induction entries with
  | nil =>
    intro cur acc _ _
    simp [activeEntries, broadcastOutcomes]
  | cons e rest ih =>
    intro cur acc hmem hnodup
    have hregE : lookupA e.1 cur.registry = some e.2 := hmem e (List.mem_cons_self ..)
    have hnodup' : (rest.map Prod.snd).Nodup := by
      simp only [List.map_cons, List.nodup_cons] at hnodup
      exact hnodup.2
    have hne2 : e.2 ∉ rest.map Prod.snd := by
      have h₂ := hnodup
      simp only [List.map_cons, List.nodup_cons] at h₂
      exact h₂.1
    simp only [List.foldl_cons]
    cases hs : lookupA e.2 cur.store with
    | none =>
      have hstep : broadcastStep content roomId (cur, acc) e = (cur, acc) := by
        unfold broadcastStep
        rw [hs]
      have hAE : activeEntries (e :: rest) cur.store =
          activeEntries rest cur.store := by
        unfold activeEntries
        simp [List.filterMap_cons, hs]
      rw [hstep, hAE]
      obtain ⟨I1, I2, I3, I4, I5, I6, I7, I8⟩ :=
        ih cur acc (fun e' he' => hmem e' (List.mem_cons_of_mem _ he')) hnodup'
      exact ⟨I1, I2, I3, I4, I5, I6,
        fun sid hsid => I7 sid (fun hmem2 => hsid (List.mem_cons_of_mem _ hmem2)), I8⟩
    | some s =>
      by_cases hact : s.isActive
      case neg =>
        have hstep : broadcastStep content roomId (cur, acc) e = (cur, acc) := by
          unfold broadcastStep
          rw [hs]
          simp [hact]
        have hAE : activeEntries (e :: rest) cur.store =
            activeEntries rest cur.store := by
          unfold activeEntries
          simp [List.filterMap_cons, hs, hact]
        rw [hstep, hAE]
        obtain ⟨I1, I2, I3, I4, I5, I6, I7, I8⟩ :=
          ih cur acc (fun e' he' => hmem e' (List.mem_cons_of_mem _ he')) hnodup'
        exact ⟨I1, I2, I3, I4, I5, I6,
          fun sid hsid => I7 sid (fun hmem2 => hsid (List.mem_cons_of_mem _ hmem2)), I8⟩
      case pos =>
        have hstep : broadcastStep content roomId (cur, acc) e =
            ((sendMessage e.1 content roomId cur).1, acc ++ [e.1]) := by
          unfold broadcastStep
          rw [hs]
          simp [hact]
        have hAE : activeEntries (e :: rest) cur.store =
            (e, s) :: activeEntries rest cur.store := by
          unfold activeEntries
          simp [List.filterMap_cons, hs, hact]
        have hact' : s.isActive = true := hact
        rw [hstep, sendMessage_registered cur e.1 content roomId e.2 s hregE hs hact',
          hAE, broadcastOutcomes_cons]
        have hAE' : activeEntries rest
            (setAssoc e.2
              { s with
                  outbound := s.outbound ++
                    [Envelope.roomMessage cur.selfPeerId roomId cur.eventCounter s.seq
                      (generateEventId cur.eventCounter) content],
                  seq := s.seq + 1 } cur.store) =
            activeEntries rest cur.store := by
          apply activeEntries_congr
          intro e' he'
          apply lookupA_setAssoc_ne
          intro hcontra
          exact hne2 (hcontra ▸ List.mem_map.mpr ⟨e', he', rfl⟩)
        obtain ⟨IH1, IH2, IH3, IH4, IH5, IH6, IH7, IH8⟩ :=
          ih { cur with
                store := setAssoc e.2
                  { s with
                      outbound := s.outbound ++
                        [Envelope.roomMessage cur.selfPeerId roomId cur.eventCounter
                          s.seq (generateEventId cur.eventCounter) content],
                      seq := s.seq + 1 } cur.store,
                events := cur.events ++
                  [.messageSent (Envelope.roomMessage cur.selfPeerId roomId
                    cur.eventCounter s.seq (generateEventId cur.eventCounter) content)],
                history := cur.history ++
                  [(roomId, Envelope.roomMessage cur.selfPeerId roomId cur.eventCounter
                    s.seq (generateEventId cur.eventCounter) content)],
                eventCounter := cur.eventCounter + 1 }
            (acc ++ [e.1])
            (fun e' he' => hmem e' (List.mem_cons_of_mem _ he'))
            hnodup'
        simp only [hAE'] at IH3 IH4 IH5 IH6 IH8
        refine ⟨?_, ?_, ?_, ?_, ?_, ?_, ?_, ?_⟩
        · rw [IH1]
        · rw [IH2]
        · rw [IH3]
          simp
        · rw [IH4]
          simp [List.append_assoc]
        · rw [IH5]
          simp [List.append_assoc]
        · rw [IH6]
          simp [List.length_cons]
          omega
        · intro sid hsid
          simp only [List.map_cons, List.mem_cons] at hsid
          push_neg at hsid
          rw [IH7 sid hsid.2]
          exact lookupA_setAssoc_ne _ _ hsid.1
        · intro o ho
          rcases List.mem_cons.mp ho with rfl | ho₂
          · rw [IH7 e.2 hne2]
            exact lookupA_setAssoc_self ..
          · exact IH8 o ho₂

/-- C7: `broadcast` attempts one `m.room.message` send for every currently
active session, in session-map order, whatever the health of any stream: no
hypothesis mentions any session's sink, so one session's failing stream
cannot prevent the remaining active sessions from being attempted, and every
active session with a healthy sink carries its copy of the message on the
wire. -/
theorem broadcast_best_effort (st : ProtoState) (content roomId : String)
    (hkeys : (st.registry.map Prod.fst).Nodup)
    (hsids : (st.registry.map Prod.snd).Nodup) :
    (broadcast content roomId st).2 =
      (activeEntries st.registry st.store).map (fun e => e.1.1) ∧
    (∀ o ∈ broadcastOutcomes st.selfPeerId content roomId st.eventCounter
        (activeEntries st.registry st.store),
      lookupA o.1.2 (broadcast content roomId st).1.store =
        some { o.2.1 with
                outbound := o.2.1.outbound ++ [o.2.2],
                seq := o.2.1.seq + 1 } ∧
      (o.2.1.sinkOk = true →
        (lookupA o.1.2 (broadcast content roomId st).1.store).map
            ChatSession.wireOutput =
          some ((o.2.1.outbound ++ [o.2.2]).map wireFrame))) := by
  have hmem : ∀ e ∈ st.registry, lookupA e.1 st.registry = some e.2 :=
    fun e he => lookupA_mem_of_nodup hkeys (by simpa using he)
  obtain ⟨-, -, H3, -, -, -, -, H8⟩ :=
    broadcast_foldl_spec content roomId st.registry st [] hmem hsids
  refine ⟨by simpa [broadcast] using H3, fun o ho => ?_⟩
  have h₂ : lookupA o.1.2 (broadcast content roomId st).1.store =
      some { o.2.1 with
              outbound := o.2.1.outbound ++ [o.2.2],
              seq := o.2.1.seq + 1 } := H8 o ho
  refine ⟨h₂, fun hsink => ?_⟩
  rw [h₂]
  unfold ChatSession.wireOutput
  simp [hsink]

/-- Witness for C7 on `stThree` (sessions for `"A"`, `"B"`, `"C"`, all
active, the sink of `"B"` failing): all three are attempted and the two
healthy sessions carry the message on the wire. -/
theorem broadcast_best_effort_witness :
    (broadcast "yo" "room" stThree).2 =
      (activeEntries stThree.registry stThree.store).map (fun e => e.1.1) ∧
    (∀ o ∈ broadcastOutcomes stThree.selfPeerId "yo" "room"
        stThree.eventCounter (activeEntries stThree.registry stThree.store),
      lookupA o.1.2 (broadcast "yo" "room" stThree).1.store =
        some { o.2.1 with
                outbound := o.2.1.outbound ++ [o.2.2],
                seq := o.2.1.seq + 1 } ∧
      (o.2.1.sinkOk = true →
        (lookupA o.1.2 (broadcast "yo" "room" stThree).1.store).map
            ChatSession.wireOutput =
          some ((o.2.1.outbound ++ [o.2.2]).map wireFrame))) :=
  broadcast_best_effort stThree "yo" "room" (by decide) (by decide)

/-- The outcome list has one element per active session. -/
theorem broadcastOutcomes_length (selfId content roomId : String) :
    ∀ (ctr : Nat) (A : List ((String × Nat) × ChatSession)),
      (broadcastOutcomes selfId content roomId ctr A).length = A.length := by
  intro ctr A
  induction A generalizing ctr with
  | nil => rfl
  | cons a A ih =>
    cases a with
    | mk e s => simp [broadcastOutcomes_cons, ih]

/-- The envelopes of the outcome list draw consecutive fresh counters as
their timestamps. -/
theorem broadcastOutcomes_originTs (selfId content roomId : String) :
    ∀ (ctr : Nat) (A : List ((String × Nat) × ChatSession)),
      (broadcastOutcomes selfId content roomId ctr A).map
          (fun o => o.2.2.originTsField) =
        List.range' ctr A.length := by
  intro ctr A
  induction A generalizing ctr with
  | nil => rfl
  | cons a A ih =>
    cases a with
    | mk e s =>
      simp only [broadcastOutcomes_cons, List.map_cons, List.length_cons,
        List.range'_succ, ih]
      rfl

/-- Every envelope of the outcome list is the room message for this
broadcast: same room and body for all, the recipient session's own `seq`,
and an event id generated from the envelope's own fresh timestamp. -/
theorem broadcastOutcomes_shape (selfId content roomId : String) :
    ∀ (ctr : Nat) (A : List ((String × Nat) × ChatSession)),
      ∀ o ∈ broadcastOutcomes selfId content roomId ctr A,
        o.2.2 = Envelope.roomMessage selfId roomId o.2.2.originTsField o.2.1.seq
          (generateEventId o.2.2.originTsField) content := by
  intro ctr A
  induction A generalizing ctr with
  | nil => intro o ho; cases ho
  | cons a A ih =>
    cases a with
    | mk e s =>
      intro o ho
      rcases List.mem_cons.mp ho with rfl | ho₂
      · rfl
      · exact ih (ctr + 1) o ho₂

/-- C10: a broadcast with `N` currently active sessions constructs `N`
separate envelopes (same room id and body, each with its own session's
`seq` and its own fresh timestamp and event id), appends each one to the
history of that room — `N` history entries, not one — and emits one
`message:sent` event per recipient. -/
theorem broadcast_fanout_history (st : ProtoState) (content roomId : String)
    (hkeys : (st.registry.map Prod.fst).Nodup)
    (hsids : (st.registry.map Prod.snd).Nodup) :
    (broadcast content roomId st).1.history =
      st.history ++
        (broadcastOutcomes st.selfPeerId content roomId st.eventCounter
          (activeEntries st.registry st.store)).map (fun o => (roomId, o.2.2)) ∧
    (broadcast content roomId st).1.events =
      st.events ++
        (broadcastOutcomes st.selfPeerId content roomId st.eventCounter
          (activeEntries st.registry st.store)).map
          (fun o => Event.messageSent o.2.2) ∧
    (broadcastOutcomes st.selfPeerId content roomId st.eventCounter
      (activeEntries st.registry st.store)).length =
      (activeEntries st.registry st.store).length ∧
    (∀ o ∈ broadcastOutcomes st.selfPeerId content roomId st.eventCounter
        (activeEntries st.registry st.store),
      o.2.2 = Envelope.roomMessage st.selfPeerId roomId o.2.2.originTsField
        o.2.1.seq (generateEventId o.2.2.originTsField) content) ∧
    (broadcastOutcomes st.selfPeerId content roomId st.eventCounter
        (activeEntries st.registry st.store)).map
        (fun o => o.2.2.originTsField) =
      List.range' st.eventCounter (activeEntries st.registry st.store).length := by
  have hmem : ∀ e ∈ st.registry, lookupA e.1 st.registry = some e.2 :=
    fun e he => lookupA_mem_of_nodup hkeys (by simpa using he)
  obtain ⟨-, -, -, H4, H5, -, -, -⟩ :=
    broadcast_foldl_spec content roomId st.registry st [] hmem hsids
  exact ⟨by simpa [broadcast] using H4, by simpa [broadcast] using H5,
    broadcastOutcomes_length st.selfPeerId content roomId st.eventCounter _,
    broadcastOutcomes_shape st.selfPeerId content roomId st.eventCounter _,
    broadcastOutcomes_originTs st.selfPeerId content roomId st.eventCounter _⟩

/-- Witness for C10 on `stThree`: three history entries for the room, three
`message:sent` events, three envelopes with consecutive fresh draws. -/
theorem broadcast_fanout_history_witness :
    (broadcast "yo" "room" stThree).1.history =
      stThree.history ++
        (broadcastOutcomes stThree.selfPeerId "yo" "room" stThree.eventCounter
          (activeEntries stThree.registry stThree.store)).map
          (fun o => ("room", o.2.2)) ∧
    (broadcastOutcomes stThree.selfPeerId "yo" "room" stThree.eventCounter
      (activeEntries stThree.registry stThree.store)).length =
      (activeEntries stThree.registry stThree.store).length := by
  have h := broadcast_fanout_history stThree "yo" "room" (by decide) (by decide)
  exact ⟨h.1, h.2.2.1⟩
